import Mathlib

/-!
Verification of `error_analyzer.py` (auto-debugging pipeline).

Shallow embedding conventions:
* Python strings are Lean `String`s over a `\n`-terminated line discipline.
* Python runtime services that are not repository code (`json.loads`,
  `float(str)`, `ast.parse`, `traceback.format_exception`, `shutil.copy2`
  success, file-system reads/writes) are explicit parameters, so theorems
  quantify over their behaviour and witnesses instantiate them concretely.
* A raised Python exception is modelled as the `.error` branch of `Except
  String`, carrying the exception's text.
-/

namespace ErrorAnalyzer

/-! ## Python string helpers -/

/-- The line-feed character. -/
def lineFeed : Char := Char.ofNat 10

/-- Split a character list on a separator; always returns at least one
(possibly empty) piece, like Python `str.split(sep)`. -/
def splitOnChar (sep : Char) : List Char → List (List Char)
  | [] => [[]]
  | c :: rest =>
    match splitOnChar sep rest with
    | [] => []
    | h :: t => if c = sep then [] :: h :: t else (c :: h) :: t

/-- Python `str.splitlines()` restricted to the `\n` separator: no trailing
empty line is produced for a terminating newline, and `"" ↦ []`. -/
def splitlines (s : String) : List String :=
  if s = "" then []
  else
    let parts := (splitOnChar lineFeed s.toList).map String.mk
    if parts.getLast? = some "" then parts.dropLast else parts

/-- Python `str.rstrip()`: drop trailing whitespace characters. -/
def rstrip (s : String) : String :=
  String.mk ((s.toList.reverse.dropWhile Char.isWhitespace).reverse)

/-- Python format `f"{n:4d}"` for a natural number: left-pad to width 4. -/
def pad4 (n : Nat) : String :=
  let s := toString n
  if s.length < 4 then String.mk (List.replicate (4 - s.length) ' ') ++ s
  else s

/-- Python `os.path.basename` (POSIX): last `/`-separated component. -/
def basename (p : String) : String :=
  (((splitOnChar '/' p.toList).map String.mk).getLast?).getD p

/-- Python `str.startswith`. -/
def startswith (s pre : String) : Bool :=
  pre.toList.isPrefixOf s.toList

/-- Python `str.endswith`. -/
def endswith (s suf : String) : Bool :=
  suf.toList.reverse.isPrefixOf s.toList.reverse

/-! ## Association-list model of a Python `dict` with string keys
(insertion order preserved, assignment to an existing key overwrites). -/

def lookupA {α : Type} (m : List (String × α)) (k : String) : Option α :=
  (m.find? (fun p => p.1 = k)).map (fun p => p.2)

/-- `m[k] = v` on a dict: overwrite the entry in place if the key is
present, append it otherwise (Python dicts preserve insertion order). -/
def setA {α : Type} : List (String × α) → String → α → List (String × α)
  | [], k, v => [(k, v)]
  | (k', v') :: rest, k, v =>
    if k' = k then (k, v) :: rest else (k', v') :: setA rest k v

/-! ## JSON values (the possible results of `json.loads`) -/

inductive Json where
  | null : Json
  | bool : Bool → Json
  | num : Rat → Json
  | str : String → Json
  | arr : List Json → Json
  | obj : List (String × Json) → Json

/-- Python runtime services used by the analyzer that are not repository
code.  `json_loads` models `json.loads` (strict decoding, `.error` = raised
`JSONDecodeError`); `float_of_string` models `float(s)` on a string argument
(`.error` = raised `ValueError`). -/
structure Stdlib where
  json_loads : String → Except String Json
  float_of_string : String → Except String Rat

/-- Python `float(v)` on a decoded JSON value: numbers and booleans convert,
strings go through `float_of_string`, everything else raises `TypeError`. -/
def pyFloat (std : Stdlib) : Json → Except String Rat
  | .num q => .ok q
  | .bool b => .ok (if b then 1 else 0)
  | .str s => std.float_of_string s
  | .null => .error "float() argument must be a string or a real number, not NoneType"
  | .arr _ => .error "float() argument must be a string or a real number, not list"
  | .obj _ => .error "float() argument must be a string or a real number, not dict"

/-- `kvs.get(k, default)` on the field list of a decoded JSON object. -/
def dictGet (kvs : List (String × Json)) (k : String) (default : Json) : Json :=
  ((kvs.find? (fun p => p.1 = k)).map (fun p => p.2)).getD default

/-- Python `data.get(k, default)`: succeeds on a dict, raises
`AttributeError` on any other decoded value. -/
def pyDictGet (data : Json) (k : String) (default : Json) : Except String Json :=
  match data with
  | .obj kvs => .ok (dictGet kvs k default)
  | _ => .error "object has no attribute get"

/-! ## The regex search `re.search(r'\x7b.*\x7d', response, re.DOTALL)`

Leftmost-greedy semantics over the character list: the match starts at the
first `{` that is followed by some `}`, and extends to the last `}` of the
string. -/

def openBrace : Char := Char.ofNat 123
def closeBrace : Char := Char.ofNat 125

def findJsonMatchL (cs : List Char) : Option (List Char) :=
  let afterOpen := cs.dropWhile (fun c => c ≠ openBrace)
  let upToClose := (afterOpen.reverse.dropWhile (fun c => c ≠ closeBrace)).reverse
  if upToClose.isEmpty then none else some upToClose

def findJsonMatch (s : String) : Option String :=
  (findJsonMatchL s.toList).map String.mk

/-! ## FixSuggestion

The Python dataclass performs no runtime type checking, so fields populated
from decoded JSON are modelled as `Json` values; `confidence` always passes
through `float(...)` or is a float literal, hence is a number; `modified_code`
is always the literal `""`. -/

structure FixSuggestion where
  analysis : Json
  root_cause : Json
  fix_description : Json
  modified_code : String
  replication_steps : Json
  confidence : Rat
  file_changes : Json

/-- The success branch of `_parse_llm_response`: field extraction with
defaults; any raised exception (non-dict `data`, inconvertible confidence)
surfaces as `.error`. -/
def parseFields (std : Stdlib) (data : Json) : Except String FixSuggestion := do
  let analysis ← pyDictGet data "analysis" (.str "No analysis provided")
  let root_cause ← pyDictGet data "root_cause" (.str "Unknown")
  let fix_description ← pyDictGet data "fix_description" (.str "No fix description")
  let replication_steps ← pyDictGet data "replication_steps" (.arr [])
  let confRaw ← pyDictGet data "confidence" (.num (1/2))
  let confidence ← pyFloat std confRaw
  let file_changes ← pyDictGet data "file_changes" (.obj [])
  return { analysis := analysis, root_cause := root_cause,
           fix_description := fix_description, modified_code := "",
           replication_steps := replication_steps, confidence := confidence,
           file_changes := file_changes }

/-- Fallback when no brace-delimited match exists in the response. -/
def unstructuredFallback (response : String) : FixSuggestion :=
  { analysis := .str response
    root_cause := .str "Parsed from unstructured response"
    fix_description := .str "See analysis for details"
    modified_code := ""
    replication_steps := .arr [.str "Manual analysis required"]
    confidence := 3/10
    file_changes := .obj [] }

/-- Fallback when decoding or field extraction raises: embeds the raw
response and the exception text in `analysis`. -/
def parseErrorFallback (response e : String) : FixSuggestion :=
  { analysis := .str ("Error parsing LLM response: " ++ e ++ "\n\nRaw response:\n" ++ response)
    root_cause := .str "Response parsing failed"
    fix_description := .str "Manual intervention required"
    modified_code := ""
    replication_steps := .arr [.str "Check LLM response manually"]
    confidence := 0
    file_changes := .obj [] }

/-- `LLMAnalyzer._parse_llm_response`. -/
def parse_llm_response (std : Stdlib) (response : String) : FixSuggestion :=
  match findJsonMatch response with
  | some json_str =>
    match std.json_loads json_str with
    | .ok data =>
      match parseFields std data with
      | .ok fs => fs
      | .error e => parseErrorFallback response e
    | .error e => parseErrorFallback response e
  | none => unstructuredFallback response

/-- `LLMAnalyzer.analyze_and_fix`.  The prompt built by
`_create_analysis_prompt` only feeds `_call_llm`; the outcome of that call —
the response text, or the text of a raised transport exception — is the
`llm_call` parameter. -/
def analyze_and_fix (std : Stdlib) (llm_call : Except String String) :
    FixSuggestion :=
  match llm_call with
  | .ok response => parse_llm_response std response
  | .error e =>
    { analysis := .str ("Error calling LLM: " ++ e)
      root_cause := .str "Unable to analyze"
      fix_description := .str "Manual investigation required"
      modified_code := ""
      replication_steps := .arr [.str "Run the original code to reproduce"]
      confidence := 0
      file_changes := .obj [] }

/-! ## File system model for the extractor

`pathExists` models `os.path.exists`; `read` models `open(p).read()` /
`open(p).readlines()` on the same underlying bytes — `.error e` is a raised
`OSError` whose text is `e`. -/

structure FS where
  pathExists : String → Bool
  read : String → Except String String

/-- The `readlines()` view of a read: the file's lines (line terminators are
immaterial because every consumer `rstrip`s). -/
def FS.readlines (fs : FS) (p : String) : Except String (List String) :=
  (fs.read p).map splitlines

structure ErrorInfo where
  error_type : String
  error_message : String
  file_path : String
  line_number : Int
  function_name : String
  stack_trace : String
  surrounding_code : String
  relevant_files : List String

/-- `CodeContextExtractor.context_lines`. -/
def context_lines : Int := 10

/-- One rendered line of `_get_file_context`'s output: the components of
`f"(marker)(i+1:4d): (line.rstrip)"`. -/
structure RenderedLine where
  marked : Bool
  lineNo : Nat
  text : String
deriving DecidableEq, Repr

def renderLine (rl : RenderedLine) : String :=
  (if rl.marked then ">>> " else "    ") ++ pad4 rl.lineNo ++ ": " ++ rstrip rl.text

/-- The body of `_get_file_context`'s loop at index `i = start + k`:
marker `>>>` exactly on `i = line_number - 1`, 1-based displayed line
number `i + 1`, content `lines[i]`. -/
def windowLine (lines : List String) (line_number start : Int) (k : Nat) :
    RenderedLine :=
  { marked := start + (k : Int) = line_number - 1
    lineNo := (start + (k : Int) + 1).toNat
    text := (lines.get? (start + (k : Int)).toNat).getD "" }

/-- The loop of `_get_file_context`: `for i in range(start, end)` with
`start = max(0, line_number - 11)`, `end = min(len(lines), line_number + 10)`. -/
def windowLines (lines : List String) (line_number : Int) : List RenderedLine :=
  (List.range (min ((lines.length : Int)) (line_number + context_lines) -
      max 0 (line_number - context_lines - 1)).toNat).map
    (windowLine lines line_number (max 0 (line_number - context_lines - 1)))

/-- `CodeContextExtractor._get_file_context`: on a successful read, the
joined rendered window; on a raised read exception, the placeholder text.
(The Python return type is `Optional[str]` but every path returns a string.) -/
def get_file_context (readlines : Except String (List String)) (line_number : Int) :
    String :=
  match readlines with
  | .error e => "Error reading file: " ++ e
  | .ok lines =>
    String.intercalate "\n" ((windowLines lines line_number).map renderLine)

/-- `CodeContextExtractor._get_full_file_content`. -/
def get_full_file_content (read : Except String String) : String :=
  match read with
  | .error e => "Error reading file: " ++ e
  | .ok content =>
    let line_count := (splitlines content).length
    if line_count ≤ 100 then content
    else "File too large (" ++ toString line_count ++ " lines), skipping full content"

/-- One iteration of `extract_context`'s loop over `relevant_files`: a file
other than the primary that exists on disk contributes its capped full
content when truthy. -/
def extractStep (fs : FS) (error_info : ErrorInfo)
    (ctx : List (String × String)) (file_path : String) :
    List (String × String) :=
  if file_path ≠ error_info.file_path ∧ fs.pathExists file_path then
    if get_full_file_content (fs.read file_path) ≠ "" then
      setA ctx file_path (get_full_file_content (fs.read file_path))
    else ctx
  else ctx

/-- `CodeContextExtractor.extract_context`: the primary file's windowed
context is inserted when truthy (non-empty), then the loop over
`relevant_files` runs. -/
def extract_context (fs : FS) (error_info : ErrorInfo) : List (String × String) :=
  let main_context := get_file_context (fs.readlines error_info.file_path)
      error_info.line_number
  let context : List (String × String) :=
    if main_context ≠ "" then setA [] error_info.file_path main_context else []
  error_info.relevant_files.foldl (extractStep fs error_info) context

/-! ## Stack trace parser -/

/-- One traceback link: the fields read from `tb.tb_frame.f_code` and
`tb.tb_lineno`.  A traceback chain is the list of links from the outermost
call to the innermost (`tb_next` order). -/
structure Frame where
  co_filename : String
  tb_lineno : Int
  co_name : String
deriving DecidableEq, Repr

/-- `StackTraceParser._extract_files_from_traceback`: walk every link,
keep `.py` files that are not synthetic (`<...>`), then `list(set(...))`
(modelled as order-preserving deduplication; the claims are order-free). -/
def extract_files_from_traceback (tb : List Frame) : List String :=
  (((tb.map (fun fr => fr.co_filename)).filter
      (fun fp => endswith fp ".py" && !(startswith fp "<")))).dedup

/-- `StackTraceParser.parse_error`.  `format_exception` stands for
`traceback.format_exception` applied to the exception type name, message and
the full chain.  `while tb.tb_next: tb = tb.tb_next` reaches the last link;
on an empty chain the Python code raises (`none`). -/
def parse_error (fs : FS) (format_exception : String → String → List Frame → String)
    (exc_type exc_message : String) (exc_traceback : List Frame) :
    Option ErrorInfo :=
  match exc_traceback.getLast? with
  | none => none
  | some frame =>
    some { error_type := exc_type
           error_message := exc_message
           file_path := frame.co_filename
           line_number := frame.tb_lineno
           function_name := frame.co_name
           stack_trace := format_exception exc_type exc_message exc_traceback
           surrounding_code :=
             get_file_context (fs.readlines frame.co_filename) frame.tb_lineno
           relevant_files := extract_files_from_traceback exc_traceback }

/-! ## Code fixer

Disk state tracks regular files, the backup files the fixer has produced,
and existing directories.  `PyEnv` carries the non-repository runtime
services: `ast_parse_ok` is `ast.parse` succeeding, `copy2_ok`/`write_ok`
are `shutil.copy2` / `open(..., 'w')` succeeding for a path, `timestamp` is
`datetime.now().strftime("%Y%m%d_%H%M%S")`. -/

structure DiskState where
  files : List (String × String)
  backups : List (String × String)
  dirs : List String

structure PyEnv where
  ast_parse_ok : String → Bool
  copy2_ok : String → Bool
  write_ok : String → Bool
  timestamp : String

/-- `CodeFixer.backup_dir` (`Path("./code_backups")`). -/
def backup_dir : String := "./code_backups"

/-- `CodeFixer.__init__`: stores the backup directory and immediately runs
`self.backup_dir.mkdir(exist_ok=True)`. -/
def codeFixerInit (st : DiskState) : DiskState :=
  { st with dirs := if backup_dir ∈ st.dirs then st.dirs else st.dirs ++ [backup_dir] }

/-- The backup file name `f"(file_name).backup_(timestamp)"`. -/
def backup_name (file_path timestamp : String) : String :=
  basename file_path ++ ".backup_" ++ timestamp

/-- `CodeFixer._validate_python_syntax`: `ast.parse` wrapped in
`try/except SyntaxError`. -/
def validate_python_code (env : PyEnv) (code : String) : Bool :=
  env.ast_parse_ok code

/-- Observable actions of one `apply_fix` iteration, in program order. -/
inductive FixEvent where
  | backupEv : String → FixEvent
  | writeEv : String → FixEvent
deriving DecidableEq, Repr

def FixEvent.path : FixEvent → String
  | .backupEv p => p
  | .writeEv p => p

/-- The validation-and-write tail of one `apply_fix` iteration. -/
def applyValidateWrite (env : PyEnv) (st : DiskState) (file_path new_content : String)
    (evs : List FixEvent) : DiskState × Bool × List FixEvent :=
  if validate_python_code env new_content then
    if env.write_ok file_path then
      ({ st with files := setA st.files file_path new_content }, true,
        evs ++ [.writeEv file_path])
    else (st, false, evs)
  else (st, false, evs)

/-- One iteration of `apply_fix`'s loop: `if create_backup and
os.path.exists(file_path): self._create_backup(file_path)` (whose
`shutil.copy2` may raise — then the `except` records failure), followed by
syntax validation and the write. -/
def applyOne (env : PyEnv) (st : DiskState) (create_backup : Bool)
    (file_path new_content : String) : DiskState × Bool × List FixEvent :=
  if create_backup && (lookupA st.files file_path).isSome then
    if env.copy2_ok file_path then
      applyValidateWrite env
        { st with backups := st.backups ++
            [(backup_name file_path env.timestamp, (lookupA st.files file_path).getD "")] }
        file_path new_content [.backupEv file_path]
    else (st, false, [])
  else applyValidateWrite env st file_path new_content []

/-- The fold step of `apply_fix`'s loop: thread the disk state, record the
per-file boolean in `results` (dict assignment), accumulate events. -/
def applyFold (env : PyEnv) (create_backup : Bool)
    (acc : DiskState × List (String × Bool) × List FixEvent)
    (kv : String × String) : DiskState × List (String × Bool) × List FixEvent :=
  ((applyOne env acc.1 create_backup kv.1 kv.2).1,
   setA acc.2.1 kv.1 (applyOne env acc.1 create_backup kv.1 kv.2).2.1,
   acc.2.2 ++ (applyOne env acc.1 create_backup kv.1 kv.2).2.2)

/-- `CodeFixer.apply_fix`: iterate over `file_changes.items()`, recording a
per-file boolean in `results`; exceptions are caught per iteration. -/
def apply_fix (env : PyEnv) (st : DiskState)
    (file_changes : List (String × String)) (create_backup : Bool) :
    DiskState × List (String × Bool) × List FixEvent :=
  file_changes.foldl (applyFold env create_backup) (st, [], [])

/-- The outcome of processing one file, as a function of the environment,
whether the file already exists, and its own proposed content only. -/
def oneFileOutcome (env : PyEnv) (create_backup : Bool) (file_path : String)
    (existsOnDisk : Bool) (new_content : String) : Bool :=
  if create_backup && existsOnDisk && !(env.copy2_ok file_path) then false
  else if validate_python_code env new_content then env.write_ok file_path
  else false

/-- The condition under which one `apply_fix` iteration produces a backup. -/
def backupCond (env : PyEnv) (st : DiskState) (create_backup : Bool)
    (file_path : String) : Bool :=
  create_backup && (lookupA st.files file_path).isSome && env.copy2_ok file_path

/-! ## Concrete instances used in witnesses and counterexamples -/

/-- A file system on which every path is missing and every read raises. -/
def fsNone : FS :=
  { pathExists := fun _ => false
    read := fun _ => .error "[Errno 2] No such file or directory" }

def eiMissing : ErrorInfo :=
  { error_type := "FileNotFoundError"
    error_message := "missing"
    file_path := "missing.py"
    line_number := 3
    function_name := "f"
    stack_trace := "tb"
    surrounding_code := ""
    relevant_files := ["missing.py"] }

/-- A file system holding a two-line primary file and an empty secondary
file. -/
def fsEmptySecondary : FS :=
  { pathExists := fun p => p = "a.py" ∨ p = "b.py"
    read := fun p =>
      if p = "a.py" then .ok "x\ny"
      else if p = "b.py" then .ok ""
      else .error "[Errno 2] No such file or directory" }

def eiEmptySecondary : ErrorInfo :=
  { error_type := "ValueError"
    error_message := "bad"
    file_path := "a.py"
    line_number := 1
    function_name := "g"
    stack_trace := "tb"
    surrounding_code := ""
    relevant_files := ["a.py", "b.py"] }

/-- `json.loads` behaviour on the one document the C1 counterexample uses
(a JSON object whose confidence is 2.5), `ValueError` elsewhere. -/
def stdConfidence : Stdlib :=
  { json_loads := fun s =>
      if s = "\x7b\"confidence\": 2.5\x7d" then .ok (.obj [("confidence", .num (5/2))])
      else .error "Expecting value: line 1 column 1 (char 0)"
    float_of_string := fun _ => .error "could not convert string to float" }

/-- A runtime whose JSON decoding always raises; used where no decode
actually happens. -/
def stdOpaque : Stdlib :=
  { json_loads := fun _ => .error "Expecting value: line 1 column 1 (char 0)"
    float_of_string := fun _ => .error "could not convert string to float" }

/-- A fixer runtime where only the literal `"def f(:"` fails `ast.parse`
and all file operations succeed. -/
def envW : PyEnv :=
  { ast_parse_ok := fun c => c ≠ "def f(:"
    copy2_ok := fun _ => true
    write_ok := fun _ => true
    timestamp := "20260101_120000" }

def stW : DiskState :=
  { files := [("a.py", "old content")]
    backups := []
    dirs := [backup_dir] }

/-- A file system with a two-line primary file and a two-line secondary
file. -/
def fsSecondary : FS :=
  { pathExists := fun p => p = "a.py" ∨ p = "b.py"
    read := fun p =>
      if p = "a.py" then .ok "x\ny"
      else if p = "b.py" then .ok "line1\nline2"
      else .error "[Errno 2] No such file or directory" }

def eiSecondary : ErrorInfo :=
  { error_type := "TypeError"
    error_message := "bad"
    file_path := "a.py"
    line_number := 1
    function_name := "g"
    stack_trace := "tb"
    surrounding_code := ""
    relevant_files := ["b.py"] }

/-! # Theorems -/

/-! ## Association-list (dict) lemmas -/

theorem lookupA_cons {α : Type} (a : String × α) (m : List (String × α))
    (k : String) :
    lookupA (a :: m) k = if a.1 = k then some a.2 else lookupA m k := by
  by_cases h : a.1 = k <;> simp [lookupA, List.find?_cons, h]

theorem lookupA_setA_self {α : Type} (m : List (String × α)) (k : String) (v : α) :
    lookupA (setA m k v) k = some v := by
  induction m with
  | nil => simp [setA, lookupA_cons]
  | cons a rest ih =>
    rcases a with ⟨k', v'⟩
    by_cases h : k' = k
    · simp [setA, h, lookupA_cons]
    · simp [setA, h, lookupA_cons, ih]

theorem lookupA_setA_other {α : Type} (m : List (String × α)) (k k' : String)
    (v : α) (h : k' ≠ k) : lookupA (setA m k v) k' = lookupA m k' := by
  induction m with
  | nil => simp [setA, lookupA_cons, Ne.symm h, lookupA]
  | cons a rest ih =>
    rcases a with ⟨ka, va⟩
    by_cases hk : ka = k
    · subst hk
      simp [setA, lookupA_cons, Ne.symm h]
    · simp [setA, hk, lookupA_cons, ih]

theorem setA_map_fst_mem {α : Type} (m : List (String × α)) (k : String) (v : α)
    (h : k ∈ m.map Prod.fst) : (setA m k v).map Prod.fst = m.map Prod.fst := by
  induction m with
  | nil => simp at h
  | cons a rest ih =>
    rcases a with ⟨ka, va⟩
    by_cases hk : ka = k
    · simp [setA, hk]
    · simp only [List.map_cons, List.mem_cons] at h
      rcases h with h | h
      · exact absurd h.symm hk
      · simp [setA, hk, ih h]

theorem setA_map_fst_not_mem {α : Type} (m : List (String × α)) (k : String)
    (v : α) (h : k ∉ m.map Prod.fst) :
    (setA m k v).map Prod.fst = m.map Prod.fst ++ [k] := by
  induction m with
  | nil => simp [setA]
  | cons a rest ih =>
    rcases a with ⟨ka, va⟩
    simp only [List.map_cons, List.mem_cons] at h
    push_neg at h
    simp [setA, Ne.symm h.1, ih h.2]

/-! ## Extraction fold lemmas -/

theorem extractStep_lookup_other (fs : FS) (ei : ErrorInfo)
    (ctx : List (String × String)) (p q : String) (h : q ≠ p) :
    lookupA (extractStep fs ei ctx p) q = lookupA ctx q := by
  unfold extractStep
  split
  · split
    · exact lookupA_setA_other _ _ _ _ h
    · rfl
  · rfl

theorem extractStep_lookup_self (fs : FS) (ei : ErrorInfo)
    (ctx : List (String × String)) (fp : String) :
    lookupA (extractStep fs ei ctx fp) fp =
      if fp ≠ ei.file_path ∧ fs.pathExists fp = true ∧
          get_full_file_content (fs.read fp) ≠ "" then
        some (get_full_file_content (fs.read fp))
      else lookupA ctx fp := by
  unfold extractStep
  by_cases h1 : fp ≠ ei.file_path ∧ fs.pathExists fp = true
  · rw [if_pos h1]
    by_cases h2 : get_full_file_content (fs.read fp) ≠ ""
    · rw [if_pos h2, lookupA_setA_self, if_pos ⟨h1.1, h1.2, h2⟩]
    · rw [if_neg h2, if_neg (by tauto)]
  · rw [if_neg h1, if_neg (by tauto)]

theorem extract_foldl_lookup_cases (fs : FS) (ei : ErrorInfo) :
    ∀ (l : List String) (ctx : List (String × String)) (fp : String),
      lookupA (l.foldl (extractStep fs ei) ctx) fp = lookupA ctx fp ∨
      (fp ∈ l ∧ fp ≠ ei.file_path ∧ fs.pathExists fp = true ∧
        get_full_file_content (fs.read fp) ≠ "" ∧
        lookupA (l.foldl (extractStep fs ei) ctx) fp =
          some (get_full_file_content (fs.read fp))) := by
  intro l
  induction l with
  | nil => intro ctx fp; left; rfl
  | cons p rest ih =>
    intro ctx fp
    simp only [List.foldl_cons]
    rcases ih (extractStep fs ei ctx p) fp with h | h
    · by_cases hq : fp = p
      · subst hq
        rw [extractStep_lookup_self] at h
        by_cases hc : fp ≠ ei.file_path ∧ fs.pathExists fp = true ∧
            get_full_file_content (fs.read fp) ≠ ""
        · rw [if_pos hc] at h
          right
          exact ⟨List.mem_cons_self _ _, hc.1, hc.2.1, hc.2.2, h⟩
        · rw [if_neg hc] at h
          left; exact h
      · left
        rw [h, extractStep_lookup_other fs ei ctx p fp hq]
    · right
      exact ⟨List.mem_cons_of_mem _ h.1, h.2⟩

theorem extract_foldl_preserved (fs : FS) (ei : ErrorInfo) :
    ∀ (l : List String) (ctx : List (String × String)),
      lookupA (l.foldl (extractStep fs ei) ctx) ei.file_path =
        lookupA ctx ei.file_path := by
  intro l
  induction l with
  | nil => intro ctx; rfl
  | cons p rest ih =>
    intro ctx
    simp only [List.foldl_cons]
    rw [ih]
    by_cases hq : ei.file_path = p
    · subst hq
      rw [extractStep_lookup_self, if_neg (by tauto)]
    · exact extractStep_lookup_other fs ei ctx p _ hq

theorem extract_foldl_stable (fs : FS) (ei : ErrorInfo) (fp : String) :
    ∀ (l : List String) (ctx : List (String × String)),
      lookupA ctx fp = some (get_full_file_content (fs.read fp)) →
      lookupA (l.foldl (extractStep fs ei) ctx) fp =
        some (get_full_file_content (fs.read fp)) := by
  intro l
  induction l with
  | nil => intro ctx h; exact h
  | cons p rest ih =>
    intro ctx h
    simp only [List.foldl_cons]
    apply ih
    by_cases hq : fp = p
    · subst hq
      rw [extractStep_lookup_self]
      by_cases hc : fp ≠ ei.file_path ∧ fs.pathExists fp = true ∧
          get_full_file_content (fs.read fp) ≠ ""
      · rw [if_pos hc]
      · rw [if_neg hc]; exact h
    · rw [extractStep_lookup_other fs ei ctx p fp hq]; exact h

theorem extract_foldl_present (fs : FS) (ei : ErrorInfo) (fp : String)
    (hne : fp ≠ ei.file_path) (hex : fs.pathExists fp = true)
    (hval : get_full_file_content (fs.read fp) ≠ "") :
    ∀ (l : List String) (ctx : List (String × String)), fp ∈ l →
      lookupA (l.foldl (extractStep fs ei) ctx) fp =
        some (get_full_file_content (fs.read fp)) := by
  intro l
  induction l with
  | nil => intro ctx h; simp at h
  | cons p rest ih =>
    intro ctx hmem
    simp only [List.foldl_cons]
    by_cases hq : fp = p
    · subst hq
      apply extract_foldl_stable
      rw [extractStep_lookup_self, if_pos ⟨hne, hex, hval⟩]
    · rcases List.mem_cons.mp hmem with h | h
      · exact absurd h hq
      · exact ih _ h

/-- The error placeholder string is truthy (non-empty). -/
theorem error_placeholder_ne_empty (e : String) :
    ("Error reading file: " ++ e) ≠ "" := by
  intro h
  have hlen := congrArg String.length h
  rw [String.length_append] at hlen
  have h20 : ("Error reading file: " : String).length = 20 := rfl
  have h0 : ("" : String).length = 0 := rfl
  rw [h20, h0] at hlen
  omega

/-! ## Fixer state lemmas needed for C10 -/

theorem applyValidateWrite_dirs (env : PyEnv) (st : DiskState)
    (fp c : String) (evs : List FixEvent) :
    (applyValidateWrite env st fp c evs).1.dirs = st.dirs := by
  unfold applyValidateWrite
  split_ifs <;> rfl

theorem applyOne_dirs (env : PyEnv) (st : DiskState) (cb : Bool)
    (fp c : String) : (applyOne env st cb fp c).1.dirs = st.dirs := by
  unfold applyOne
  split_ifs <;> simp [applyValidateWrite_dirs]

theorem apply_fix_foldl_dirs (env : PyEnv) (cb : Bool) :
    ∀ (fc : List (String × String))
      (acc : DiskState × List (String × Bool) × List FixEvent),
      (fc.foldl (applyFold env cb) acc).1.dirs = acc.1.dirs := by
  intro fc
  induction fc with
  | nil => intro acc; rfl
  | cons kv rest ih =>
    intro acc
    rw [List.foldl_cons, ih]
    exact applyOne_dirs env acc.1 cb kv.1 kv.2

/-! ## Claim C10 -/

/-- C10 counterexample: the claim says constructing a Fixer does not create
the backup directory, but `CodeFixer.__init__` runs
`self.backup_dir.mkdir(exist_ok=True)`: starting from a disk with no
directories, construction alone creates `./code_backups`. -/
theorem C10_counterexample :
    backup_dir ∉ (DiskState.mk [] [] []).dirs ∧
    backup_dir ∈ (codeFixerInit (DiskState.mk [] [] [])).dirs := by
  constructor
  · simp
  · simp [codeFixerInit]

/-- C10 (amended): the backup directory is created eagerly at Fixer
construction (`mkdir(exist_ok=True)` in `__init__`), not lazily on first
use: after construction it exists whatever the prior state, construction
touches nothing else on disk, and `apply_fix` itself never creates a
directory. -/
theorem C10_amended_eager_backup_dir (st : DiskState) (env : PyEnv)
    (fc : List (String × String)) (cb : Bool) :
    backup_dir ∈ (codeFixerInit st).dirs ∧
    (codeFixerInit st).files = st.files ∧
    (codeFixerInit st).backups = st.backups ∧
    (apply_fix env st fc cb).1.dirs = st.dirs := by
  refine ⟨?_, rfl, rfl, apply_fix_foldl_dirs env cb fc (st, [], [])⟩
  unfold codeFixerInit
  by_cases h : backup_dir ∈ st.dirs
  · simp only [if_pos h]
    exact h
  · simp [h]

/-! ## Claim C2 -/

/-- C2 counterexample: the claim says no entry (not even a placeholder)
appears for a missing file, including the primary failing file; but when
the primary file does not exist, `_get_file_context` catches the read
exception and returns an error placeholder, which is truthy, so
`extract_context` inserts it under the missing primary path. -/
theorem C2_counterexample :
    fsNone.pathExists "missing.py" = false ∧
    lookupA (extract_context fsNone eiMissing) "missing.py" =
      some "Error reading file: [Errno 2] No such file or directory" := by
  exact ⟨rfl, rfl⟩

/-- C2 (amended): entries for files other than the primary failing file
appear only when the file exists on disk at extraction time (the
`os.path.exists` guard); the primary failing file is exempt — when its read
raises, a truthy error placeholder is inserted under its path even though
the file does not exist. -/
theorem C2_amended_secondary_requires_existing (fs : FS) (ei : ErrorInfo) :
    (∀ fp, fp ≠ ei.file_path →
        (lookupA (extract_context fs ei) fp).isSome = true →
        fs.pathExists fp = true) ∧
    (∀ e, fs.read ei.file_path = .error e →
        lookupA (extract_context fs ei) ei.file_path =
          some ("Error reading file: " ++ e)) := by
  constructor
  · intro fp hne hsome
    unfold extract_context at hsome
    rcases extract_foldl_lookup_cases fs ei ei.relevant_files _ fp with h | h
    · exfalso
      rw [h] at hsome
      by_cases hmc : get_file_context (fs.readlines ei.file_path) ei.line_number ≠ ""
      · rw [if_pos hmc, lookupA_setA_other _ _ _ _ hne] at hsome
        simp [lookupA] at hsome
      · rw [if_neg hmc] at hsome
        simp [lookupA] at hsome
    · exact h.2.2.1
  · intro e hread
    unfold extract_context
    rw [extract_foldl_preserved]
    have hmc : get_file_context (fs.readlines ei.file_path) ei.line_number =
        "Error reading file: " ++ e := by
      simp [FS.readlines, hread, get_file_context, Except.map]
    rw [hmc, if_pos (error_placeholder_ne_empty e), lookupA_setA_self]

/-- C2 witness: at a concrete file system, a secondary file with an entry in
the context map does exist on disk. -/
theorem C2_witness : fsSecondary.pathExists "b.py" = true :=
  (C2_amended_secondary_requires_existing fsSecondary eiSecondary).1 "b.py"
    (by decide) (by decide)

/-! ## Claim C3 -/

/-- C3 counterexample: the claim says `relevant_files` contains every
distinct non-synthetic source file path of the chain, but the code also
requires the `.py` suffix: a frame whose file is `app.pyw` (a genuine,
non-synthetic Python source path) is dropped. -/
theorem C3_counterexample :
    startswith "app.pyw" "<" = false ∧
    extract_files_from_traceback [Frame.mk "app.pyw" 3 "f"] = [] ∧
    "app.pyw" ∉ extract_files_from_traceback [Frame.mk "app.pyw" 3 "f"] := by
  refine ⟨by decide, by decide, by decide⟩

/-- C3 (amended): `relevant_files` contains exactly the distinct frame file
paths that end in `.py` and do not start with the synthetic marker `<`,
with no duplicates (walking the entire chain). -/
theorem C3_amended_py_filter (tb : List Frame) :
    (∀ fp, fp ∈ extract_files_from_traceback tb ↔
        ((∃ fr ∈ tb, fr.co_filename = fp) ∧ endswith fp ".py" = true ∧
          startswith fp "<" = false)) ∧
    (extract_files_from_traceback tb).Nodup := by
  constructor
  · intro fp
    unfold extract_files_from_traceback
    rw [List.mem_dedup, List.mem_filter]
    simp only [List.mem_map, Bool.and_eq_true, Bool.not_eq_true']
  · exact List.nodup_dedup _

/-- C3 witness: on a concrete chain with a synthetic frame and a duplicated
`.py` frame, the collected list contains the `.py` file. -/
theorem C3_witness :
    "a.py" ∈ extract_files_from_traceback
      [Frame.mk "<string>" 1 "g", Frame.mk "a.py" 2 "h", Frame.mk "a.py" 9 "h"] :=
  ((C3_amended_py_filter _).1 "a.py").mpr (by decide)

/-! ## Newline-freeness of the decimal rendering of a `Nat`, and of the
"file too large" placeholder; needed to show the placeholder can never
coincide with a file content of more than 100 lines. -/

theorem digitChar_no_newline (m : Nat) : Nat.digitChar m ≠ lineFeed := by
  by_cases h : m < 16
  · interval_cases m <;> decide
  · have hstar : Nat.digitChar m = '*' := by
      unfold Nat.digitChar
      rw [if_neg (by omega : ¬ (m = 0)), if_neg (by omega : ¬ (m = 1)),
        if_neg (by omega : ¬ (m = 2)), if_neg (by omega : ¬ (m = 3)),
        if_neg (by omega : ¬ (m = 4)), if_neg (by omega : ¬ (m = 5)),
        if_neg (by omega : ¬ (m = 6)), if_neg (by omega : ¬ (m = 7)),
        if_neg (by omega : ¬ (m = 8)), if_neg (by omega : ¬ (m = 9)),
        if_neg (by omega : ¬ (m = 10)), if_neg (by omega : ¬ (m = 11)),
        if_neg (by omega : ¬ (m = 12)), if_neg (by omega : ¬ (m = 13)),
        if_neg (by omega : ¬ (m = 14)), if_neg (by omega : ¬ (m = 15))]
    rw [hstar]
    decide

theorem toDigitsCore_no_newline (b : Nat) :
    ∀ (fuel n : Nat) (ds : List Char), (∀ c ∈ ds, c ≠ lineFeed) →
      ∀ c ∈ Nat.toDigitsCore b fuel n ds, c ≠ lineFeed := by
  intro fuel
  induction fuel with
  | zero => intro n ds h; simpa [Nat.toDigitsCore] using h
  | succ f ih =>
    intro n ds h
    rw [Nat.toDigitsCore]
    have hcons : ∀ c ∈ Nat.digitChar (n % b) :: ds, c ≠ lineFeed := by
      intro c hc
      rcases List.mem_cons.mp hc with rfl | hm
      · exact digitChar_no_newline _
      · exact h _ hm
    split
    · exact hcons
    · exact ih _ _ hcons

theorem natRepr_no_newline (n : Nat) : ∀ c ∈ (Nat.repr n).data, c ≠ lineFeed := by
  intro c hc
  exact toDigitsCore_no_newline 10 (n + 1) n [] (by simp) c hc

theorem string_data_append (a b : String) : (a ++ b).data = a.data ++ b.data := rfl

theorem placeholder_no_newline (n : Nat) :
    ∀ c ∈ ("File too large (" ++ Nat.repr n ++
        " lines), skipping full content").data, c ≠ lineFeed := by
  intro c hc
  rw [string_data_append, string_data_append] at hc
  have hlit1 : ∀ x ∈ ("File too large (" : String).data, x ≠ lineFeed := by decide
  have hlit2 : ∀ x ∈ (" lines), skipping full content" : String).data,
      x ≠ lineFeed := by decide
  rcases List.mem_append.mp hc with hc' | hc'
  · rcases List.mem_append.mp hc' with hc'' | hc''
    · exact hlit1 c hc''
    · exact natRepr_no_newline n c hc''
  · exact hlit2 c hc'

theorem splitOnChar_of_not_mem (sep : Char) (cs : List Char) (h : sep ∉ cs) :
    splitOnChar sep cs = [cs] := by
  induction cs with
  | nil => rfl
  | cons c rest ih =>
    have hc : ¬ c = sep := fun e => h (e ▸ List.mem_cons_self c rest)
    have hr : sep ∉ rest := fun m => h (List.mem_cons_of_mem _ m)
    rw [splitOnChar, ih hr]
    simp [hc]

theorem mk_data (s : String) : String.mk s.data = s := rfl

theorem mk_toList (s : String) : String.mk s.toList = s := rfl

theorem splitlines_no_newline (s : String)
    (h : ∀ c ∈ s.data, c ≠ lineFeed) : (splitlines s).length ≤ 1 := by
  by_cases hs : s = ""
  · simp [splitlines, hs]
  · have hm : lineFeed ∉ s.toList := fun m => h _ m rfl
    have hsplit : splitOnChar lineFeed s.toList = [s.toList] :=
      splitOnChar_of_not_mem _ _ hm
    unfold splitlines
    rw [if_neg hs, hsplit]
    simp only [List.map_cons, List.map_nil, mk_toList]
    split <;> simp

theorem toString_nat_eq_repr (n : Nat) : toString n = Nat.repr n := rfl

theorem placeholder_ne_empty (n : Nat) :
    ("File too large (" ++ Nat.repr n ++ " lines), skipping full content") ≠ "" := by
  intro h
  have hlen := congrArg String.length h
  rw [String.length_append, String.length_append] at hlen
  have h1 : ("File too large (" : String).length = 16 := rfl
  have h2 : (" lines), skipping full content" : String).length = 30 := rfl
  have h0 : ("" : String).length = 0 := rfl
  rw [h1, h2, h0] at hlen
  omega

theorem placeholder_ne_content (content : String) (n : Nat)
    (h : 100 < (splitlines content).length) :
    ("File too large (" ++ Nat.repr n ++ " lines), skipping full content") ≠
      content := by
  intro e
  have h1 := splitlines_no_newline _ (placeholder_no_newline n)
  rw [e] at h1
  omega

/-! ## Range filter helper for C4 -/

theorem range_filter_single (M c : Nat) (h : c < M) :
    (List.range M).filter (fun k => decide (k = c)) = [c] := by
  induction M with
  | zero => omega
  | succ n ih =>
    rw [List.range_succ, List.filter_append]
    by_cases hc : c < n
    · rw [ih hc]
      simp
      omega
    · have hcn : c = n := by omega
      subst hcn
      have hnil : (List.range c).filter (fun k => decide (k = c)) = [] := by
        rw [List.filter_eq_nil_iff]
        intro a ha
        simp at ha ⊢
        omega
      simp [hnil]

/-! ## Claim C4 -/

/-- C4: for a readable primary file of `N` lines and a failing line `L`
with `1 ≤ L ≤ N`, the rendered excerpt covers exactly the 1-based lines
`max 1 (L-10) .. min N (L+10)` in order; each rendered line carries the
content of the source line its displayed number names; exactly one line is
marked, namely line `L`; and the output string of `_get_file_context` is
the newline join of those rendered lines (marker, 4-padded line number,
colon, rstripped text). -/
theorem C4_context_window (lines : List String) (L : Int)
    (h1 : 1 ≤ L) (h2 : L ≤ (lines.length : Int)) :
    ((windowLines lines L).map (fun rl => (rl.lineNo : Int)) =
      (List.range ((min ((lines.length : Int)) (L + 10) - max 1 (L - 10)) + 1).toNat).map
        (fun (k : Nat) => max 1 (L - 10) + (k : Int))) ∧
    (∀ rl ∈ windowLines lines L, rl.text = (lines.get? (rl.lineNo - 1)).getD "") ∧
    (((windowLines lines L).filter (fun rl => rl.marked)).map
        (fun rl => (rl.lineNo : Int)) = [L]) ∧
    (∀ rl ∈ windowLines lines L, (rl.marked = true ↔ (rl.lineNo : Int) = L)) ∧
    (get_file_context (.ok lines) L =
      String.intercalate "\n" ((windowLines lines L).map renderLine)) := by
  have hctx : context_lines = 10 := rfl
  refine ⟨?_, ?_, ?_, ?_, rfl⟩
  · rw [windowLines, List.map_map]
    have hM : (min ((lines.length : Int)) (L + context_lines) -
        max 0 (L - context_lines - 1)).toNat =
        ((min ((lines.length : Int)) (L + 10) - max 1 (L - 10)) + 1).toNat := by
      rw [hctx]; omega
    rw [hM]
    apply List.map_congr_left
    intro k hk
    simp only [Function.comp_apply, windowLine]
    rw [hctx]
    omega
  · intro rl hrl
    rw [windowLines] at hrl
    obtain ⟨k, hk, rfl⟩ := List.mem_map.mp hrl
    simp only [windowLine]
    have he : (max 0 (L - context_lines - 1) + (k : Int) + 1).toNat - 1 =
        (max 0 (L - context_lines - 1) + (k : Int)).toNat := by
      rw [hctx]; omega
    rw [he]
  · rw [windowLines, List.filter_map]
    have hpred : ∀ k ∈ List.range (min ((lines.length : Int)) (L + context_lines) -
        max 0 (L - context_lines - 1)).toNat,
        ((fun rl => rl.marked) ∘ windowLine lines L (max 0 (L - context_lines - 1))) k =
        decide (k = (L - 1 - max 0 (L - context_lines - 1)).toNat) := by
      intro k hk
      simp only [Function.comp_apply, windowLine, decide_eq_decide]
      rw [hctx]
      omega
    rw [List.filter_congr hpred,
      range_filter_single _ _ (by rw [hctx]; omega)]
    simp only [List.map_cons, List.map_nil, windowLine]
    have hsingle : ∀ x : Int, x = L → [x] = [L] := fun x hx => by rw [hx]
    apply hsingle
    rw [hctx]
    omega
  · intro rl hrl
    rw [windowLines] at hrl
    obtain ⟨k, hk, rfl⟩ := List.mem_map.mp hrl
    simp only [windowLine, decide_eq_true_eq]
    rw [hctx]
    constructor
    · intro he; omega
    · intro he; omega

/-- C4 witness: for a three-line file failing at line 2, the window marks
exactly line 2. -/
theorem C4_witness :
    ((windowLines ["a", "b", "c"] 2).filter (fun rl => rl.marked)).map
      (fun rl => (rl.lineNo : Int)) = [2] :=
  (C4_context_window ["a", "b", "c"] 2 (by decide) (by decide)).2.2.1

/-! ## Claim C9 -/

/-- C9 counterexample: the claim's "embeds the entire content if and only
if the file is at most 100 lines" fails for an empty secondary file: the
file exists, is readable, and has 0 ≤ 100 lines, yet the empty content is
falsy, so no entry at all appears under its path. -/
theorem C9_counterexample :
    fsEmptySecondary.pathExists "b.py" = true ∧
    fsEmptySecondary.read "b.py" = .ok "" ∧
    (splitlines "").length ≤ 100 ∧
    lookupA (extract_context fsEmptySecondary eiEmptySecondary) "b.py" = none := by
  refine ⟨by decide, rfl, by decide, by decide⟩

/-- C9 (amended): for a secondary file (member of `relevant_files` other
than the primary) that exists and is readable with content `c`: if `c` is
non-empty and has at most 100 lines the entry is exactly `c`; if `c` is
empty (still at most 100 lines) the truthiness guard drops the entry
entirely; if `c` has more than 100 lines the entry is exactly the
"file too large" placeholder naming the line count, and is never the
content itself. -/
theorem C9_amended_secondary_capping (fs : FS) (ei : ErrorInfo)
    (fp content : String) (hmem : fp ∈ ei.relevant_files)
    (hne : fp ≠ ei.file_path) (hex : fs.pathExists fp = true)
    (hread : fs.read fp = .ok content) :
    ((splitlines content).length ≤ 100 → content ≠ "" →
        lookupA (extract_context fs ei) fp = some content) ∧
    (content = "" → lookupA (extract_context fs ei) fp = none) ∧
    (100 < (splitlines content).length →
        lookupA (extract_context fs ei) fp =
          some ("File too large (" ++ toString (splitlines content).length ++
            " lines), skipping full content") ∧
        lookupA (extract_context fs ei) fp ≠ some content) := by
  have hval : get_full_file_content (fs.read fp) =
      if (splitlines content).length ≤ 100 then content
      else ("File too large (" ++ toString (splitlines content).length ++
        " lines), skipping full content") := by
    rw [hread]; rfl
  refine ⟨?_, ?_, ?_⟩
  · intro hle hne0
    unfold extract_context
    have hv : get_full_file_content (fs.read fp) = content := by
      rw [hval, if_pos hle]
    rw [extract_foldl_present fs ei fp hne hex (by rw [hv]; exact hne0)
      ei.relevant_files _ hmem, hv]
  · intro h0
    subst h0
    have hv : get_full_file_content (fs.read fp) = "" := by
      rw [hval, if_pos (by simp [splitlines])]
    unfold extract_context
    rcases extract_foldl_lookup_cases fs ei ei.relevant_files _ fp with h | h
    · rw [h]
      by_cases hmc : get_file_context (fs.readlines ei.file_path) ei.line_number ≠ ""
      · rw [if_pos hmc, lookupA_setA_other _ _ _ _ hne]
        rfl
      · rw [if_neg hmc]
        rfl
    · exact absurd hv h.2.2.2.1
  · intro hgt
    have hv : get_full_file_content (fs.read fp) =
        ("File too large (" ++ toString (splitlines content).length ++
          " lines), skipping full content") := by
      rw [hval, if_neg (by omega)]
    have hentry : lookupA (extract_context fs ei) fp =
        some ("File too large (" ++ toString (splitlines content).length ++
          " lines), skipping full content") := by
      unfold extract_context
      rw [extract_foldl_present fs ei fp hne hex
        (by rw [hv, toString_nat_eq_repr]; exact placeholder_ne_empty _)
        ei.relevant_files _ hmem, hv]
    refine ⟨hentry, ?_⟩
    rw [hentry]
    intro hcontra
    have := Option.some.inj hcontra
    rw [toString_nat_eq_repr] at this
    exact placeholder_ne_content content _ hgt this

/-- C9 witness: at a concrete file system, a two-line secondary file is
embedded whole. -/
theorem C9_witness :
    lookupA (extract_context fsSecondary eiSecondary) "b.py" =
      some "line1\nline2" :=
  (C9_amended_secondary_capping fsSecondary eiSecondary "b.py" "line1\nline2"
    (by decide) (by decide) (by decide) rfl).1 (by decide) (by decide)

/-! ## Claim C7 -/

/-- C7: `parse_error` reports `file_path`, `line_number` and
`function_name` from the innermost (deepest) frame of the chain — the
frames before it play no role in localization — while `stack_trace` is the
formatted text of the entire chain, and `relevant_files` is collected over
the entire chain.  Every chain with at least one frame has the form
`pre ++ [fr]` with `fr` innermost. -/
theorem C7_innermost_localization (fs : FS)
    (format_exception : String → String → List Frame → String)
    (exc_type exc_message : String) (pre : List Frame) (fr : Frame) :
    ∃ ei, parse_error fs format_exception exc_type exc_message (pre ++ [fr]) =
        some ei ∧
      ei.file_path = fr.co_filename ∧
      ei.line_number = fr.tb_lineno ∧
      ei.function_name = fr.co_name ∧
      ei.error_type = exc_type ∧
      ei.error_message = exc_message ∧
      ei.stack_trace = format_exception exc_type exc_message (pre ++ [fr]) ∧
      ei.relevant_files = extract_files_from_traceback (pre ++ [fr]) ∧
      ei.surrounding_code =
        get_file_context (fs.readlines fr.co_filename) fr.tb_lineno := by
  unfold parse_error
  rw [List.getLast?_concat]
  exact ⟨_, rfl, rfl, rfl, rfl, rfl, rfl, rfl, rfl, rfl⟩

/-! ## Per-iteration fixer lemmas for C5 and C8 -/

theorem oneFileOutcome_of_invalid (env : PyEnv) (cb : Bool) (fp : String)
    (ex : Bool) (c : String) (h : validate_python_code env c = false) :
    oneFileOutcome env cb fp ex c = false := by
  unfold oneFileOutcome
  split_ifs <;> simp_all

theorem applyValidateWrite_parts (env : PyEnv) (st : DiskState)
    (fp c : String) (evs : List FixEvent) :
    (applyValidateWrite env st fp c evs).1.files =
      (if validate_python_code env c && env.write_ok fp then setA st.files fp c
       else st.files) ∧
    (applyValidateWrite env st fp c evs).1.backups = st.backups ∧
    (applyValidateWrite env st fp c evs).2.1 =
      (validate_python_code env c && env.write_ok fp) ∧
    (applyValidateWrite env st fp c evs).2.2 =
      evs ++ (if validate_python_code env c && env.write_ok fp
        then [FixEvent.writeEv fp] else []) := by
  unfold applyValidateWrite
  split_ifs with h1 h2 <;> simp_all

theorem applyOne_snd (env : PyEnv) (st : DiskState) (cb : Bool)
    (fp c : String) :
    (applyOne env st cb fp c).2.1 =
      oneFileOutcome env cb fp (lookupA st.files fp).isSome c := by
  unfold applyOne oneFileOutcome
  split_ifs with h1 h2 <;>
    simp_all [applyValidateWrite_parts, validate_python_code]

theorem applyOne_files_self (env : PyEnv) (st : DiskState) (cb : Bool)
    (fp c : String) :
    lookupA (applyOne env st cb fp c).1.files fp =
      (if oneFileOutcome env cb fp (lookupA st.files fp).isSome c then some c
       else lookupA st.files fp) := by
  unfold applyOne oneFileOutcome
  split_ifs with h1 h2 <;>
    simp_all [applyValidateWrite_parts, validate_python_code,
      lookupA_setA_self]

theorem applyOne_files_other (env : PyEnv) (st : DiskState) (cb : Bool)
    (fp c q : String) (h : q ≠ fp) :
    lookupA (applyOne env st cb fp c).1.files q = lookupA st.files q := by
  unfold applyOne
  split_ifs with h1 h2 <;>
    simp_all [applyValidateWrite_parts, lookupA_setA_other _ _ _ _ h] <;>
    (try split_ifs <;> simp_all [lookupA_setA_other _ _ _ _ h])

theorem applyOne_events (env : PyEnv) (st : DiskState) (cb : Bool)
    (fp c : String) :
    (applyOne env st cb fp c).2.2 =
      (if backupCond env st cb fp then [FixEvent.backupEv fp] else []) ++
      (if oneFileOutcome env cb fp (lookupA st.files fp).isSome c
        then [FixEvent.writeEv fp] else []) := by
  unfold applyOne oneFileOutcome backupCond
  split_ifs with h1 h2 <;>
    simp_all [applyValidateWrite_parts, validate_python_code]

theorem applyOne_backups (env : PyEnv) (st : DiskState) (cb : Bool)
    (fp c : String) :
    (applyOne env st cb fp c).1.backups =
      st.backups ++
      (if backupCond env st cb fp then
        [(backup_name fp env.timestamp, (lookupA st.files fp).getD "")]
       else []) := by
  unfold applyOne backupCond
  split_ifs with h1 h2 <;> simp_all [applyValidateWrite_parts]

theorem applyOne_events_filter_other (env : PyEnv) (st : DiskState) (cb : Bool)
    (fp c q : String) (h : q ≠ fp) :
    ((applyOne env st cb fp c).2.2).filter (fun e => e.path = q) = [] := by
  rw [applyOne_events, List.filter_append]
  split_ifs <;> simp_all [FixEvent.path, Ne.symm h]

theorem backupCond_congr (env : PyEnv) (st st' : DiskState) (cb : Bool)
    (fp : String) (h : lookupA st'.files fp = lookupA st.files fp) :
    backupCond env st' cb fp = backupCond env st cb fp := by
  unfold backupCond
  rw [h]

/-! ## Fold-level fixer lemmas -/

theorem apply_fix_results_preserved (env : PyEnv) (cb : Bool) (fp : String) :
    ∀ (fc : List (String × String))
      (acc : DiskState × List (String × Bool) × List FixEvent),
      fp ∉ fc.map Prod.fst →
      lookupA (fc.foldl (applyFold env cb) acc).2.1 fp = lookupA acc.2.1 fp := by
  intro fc
  induction fc with
  | nil => intro acc _; rfl
  | cons kv rest ih =>
    intro acc hnmem
    simp only [List.map_cons, List.mem_cons] at hnmem
    push_neg at hnmem
    rw [List.foldl_cons, ih _ hnmem.2]
    exact lookupA_setA_other _ _ _ _ hnmem.1

theorem apply_fix_files_preserved (env : PyEnv) (cb : Bool) (fp : String) :
    ∀ (fc : List (String × String))
      (acc : DiskState × List (String × Bool) × List FixEvent),
      fp ∉ fc.map Prod.fst →
      lookupA (fc.foldl (applyFold env cb) acc).1.files fp =
        lookupA acc.1.files fp := by
  intro fc
  induction fc with
  | nil => intro acc _; rfl
  | cons kv rest ih =>
    intro acc hnmem
    simp only [List.map_cons, List.mem_cons] at hnmem
    push_neg at hnmem
    rw [List.foldl_cons, ih _ hnmem.2]
    exact applyOne_files_other env acc.1 cb kv.1 kv.2 fp hnmem.1

theorem apply_fix_events_preserved (env : PyEnv) (cb : Bool) (fp : String) :
    ∀ (fc : List (String × String))
      (acc : DiskState × List (String × Bool) × List FixEvent),
      fp ∉ fc.map Prod.fst →
      (fc.foldl (applyFold env cb) acc).2.2.filter (fun e => e.path = fp) =
        acc.2.2.filter (fun e => e.path = fp) := by
  intro fc
  induction fc with
  | nil => intro acc _; rfl
  | cons kv rest ih =>
    intro acc hnmem
    simp only [List.map_cons, List.mem_cons] at hnmem
    push_neg at hnmem
    rw [List.foldl_cons, ih _ hnmem.2]
    have hsplit : (applyFold env cb acc kv).2.2 =
        acc.2.2 ++ (applyOne env acc.1 cb kv.1 kv.2).2.2 := rfl
    rw [hsplit, List.filter_append,
      applyOne_events_filter_other env acc.1 cb kv.1 kv.2 fp hnmem.1,
      List.append_nil]

theorem apply_fix_backups_mono (env : PyEnv) (cb : Bool)
    (x : String × String) :
    ∀ (fc : List (String × String))
      (acc : DiskState × List (String × Bool) × List FixEvent),
      x ∈ acc.1.backups → x ∈ (fc.foldl (applyFold env cb) acc).1.backups := by
  intro fc
  induction fc with
  | nil => intro acc hx; exact hx
  | cons kv rest ih =>
    intro acc hx
    rw [List.foldl_cons]
    apply ih
    have hb : (applyFold env cb acc kv).1.backups =
        acc.1.backups ++
        (if backupCond env acc.1 cb kv.1 then
          [(backup_name kv.1 env.timestamp, (lookupA acc.1.files kv.1).getD "")]
         else []) := applyOne_backups env acc.1 cb kv.1 kv.2
    rw [hb]
    exact List.mem_append_left _ hx

theorem apply_fix_results_keys (env : PyEnv) (cb : Bool) :
    ∀ (fc : List (String × String))
      (acc : DiskState × List (String × Bool) × List FixEvent),
      (∀ k ∈ fc.map Prod.fst, k ∉ acc.2.1.map Prod.fst) →
      (fc.map Prod.fst).Nodup →
      (fc.foldl (applyFold env cb) acc).2.1.map Prod.fst =
        acc.2.1.map Prod.fst ++ fc.map Prod.fst := by
  intro fc
  induction fc with
  | nil => intro acc _ _; simp
  | cons kv rest ih =>
    intro acc hdisj hnd
    have hk1 : kv.1 ∉ acc.2.1.map Prod.fst := hdisj kv.1 (by simp)
    have hnd' : (rest.map Prod.fst).Nodup :=
      (List.nodup_cons.mp (by simpa using hnd)).2
    have hk1r : kv.1 ∉ rest.map Prod.fst :=
      (List.nodup_cons.mp (by simpa using hnd)).1
    have hstep : (applyFold env cb acc kv).2.1.map Prod.fst =
        acc.2.1.map Prod.fst ++ [kv.1] :=
      setA_map_fst_not_mem _ _ _ hk1
    rw [List.foldl_cons, ih _ ?_ hnd', hstep]
    · simp
    · intro k hkr
      rw [hstep]
      simp only [List.mem_append, List.mem_singleton]
      push_neg
      refine ⟨hdisj k (by simp [hkr]), ?_⟩
      intro e
      subst e
      exact hk1r hkr

/-- The full per-file characterisation of `apply_fix`'s loop, for a file
list with distinct paths: the recorded boolean, the final disk content, the
event trace restricted to the file, and the backup artifact, each as a
function of the file's own entry and the state at loop entry. -/
theorem apply_fix_per_file (env : PyEnv) (cb : Bool) :
    ∀ (fc : List (String × String))
      (acc : DiskState × List (String × Bool) × List FixEvent) (fp c : String),
      (fc.map Prod.fst).Nodup → (fp, c) ∈ fc →
      lookupA (fc.foldl (applyFold env cb) acc).2.1 fp =
        some (oneFileOutcome env cb fp (lookupA acc.1.files fp).isSome c) ∧
      lookupA (fc.foldl (applyFold env cb) acc).1.files fp =
        (if oneFileOutcome env cb fp (lookupA acc.1.files fp).isSome c
          then some c else lookupA acc.1.files fp) ∧
      (fc.foldl (applyFold env cb) acc).2.2.filter (fun e => e.path = fp) =
        acc.2.2.filter (fun e => e.path = fp) ++
        ((if backupCond env acc.1 cb fp then [FixEvent.backupEv fp] else []) ++
         (if oneFileOutcome env cb fp (lookupA acc.1.files fp).isSome c
           then [FixEvent.writeEv fp] else [])) ∧
      (backupCond env acc.1 cb fp = true →
        (backup_name fp env.timestamp, (lookupA acc.1.files fp).getD "") ∈
          (fc.foldl (applyFold env cb) acc).1.backups) := by
  intro fc
  induction fc with
  | nil => intro acc fp c _ hmem; simp at hmem
  | cons kv rest ih =>
    rcases kv with ⟨fp0, c0⟩
    intro acc fp c hnd hmem
    have hnd' : (rest.map Prod.fst).Nodup :=
      (List.nodup_cons.mp (by simpa using hnd)).2
    have hh : fp0 ∉ rest.map Prod.fst :=
      (List.nodup_cons.mp (by simpa using hnd)).1
    rcases List.mem_cons.mp hmem with heq | hmem'
    · -- the head entry is (fp, c)
      injection heq with h1 h2
      subst h1
      subst h2
      rw [List.foldl_cons]
      refine ⟨?_, ?_, ?_, ?_⟩
      · rw [apply_fix_results_preserved env cb fp rest _ hh]
        have hset : lookupA (applyFold env cb acc (fp, c)).2.1 fp =
            some ((applyOne env acc.1 cb fp c).2.1) := lookupA_setA_self _ _ _
        rw [hset, applyOne_snd]
      · rw [apply_fix_files_preserved env cb fp rest _ hh]
        exact applyOne_files_self env acc.1 cb fp c
      · rw [apply_fix_events_preserved env cb fp rest _ hh]
        have hsplit : (applyFold env cb acc (fp, c)).2.2 =
            acc.2.2 ++ (applyOne env acc.1 cb fp c).2.2 := rfl
        rw [hsplit, List.filter_append, applyOne_events, List.filter_append]
        have hA : (if backupCond env acc.1 cb fp then [FixEvent.backupEv fp]
              else []).filter (fun e => e.path = fp) =
            (if backupCond env acc.1 cb fp then [FixEvent.backupEv fp]
              else []) := by
          split_ifs <;> simp [FixEvent.path]
        have hB : (if oneFileOutcome env cb fp (lookupA acc.1.files fp).isSome c
              then [FixEvent.writeEv fp] else []).filter (fun e => e.path = fp) =
            (if oneFileOutcome env cb fp (lookupA acc.1.files fp).isSome c
              then [FixEvent.writeEv fp] else []) := by
          split_ifs <;> simp [FixEvent.path]
        rw [hA, hB]
      · intro hcond
        apply apply_fix_backups_mono
        have hb : (applyFold env cb acc (fp, c)).1.backups =
            acc.1.backups ++ [(backup_name fp env.timestamp,
              (lookupA acc.1.files fp).getD "")] := by
          rw [show (applyFold env cb acc (fp, c)).1.backups =
            (applyOne env acc.1 cb fp c).1.backups from rfl, applyOne_backups,
            if_pos hcond]
        rw [hb]
        exact List.mem_append_right _ (by simp)
    · -- the entry sits in the tail; the head concerns a different path
      have hfpne : fp ≠ fp0 := by
        intro e
        subst e
        exact hh (List.mem_map_of_mem Prod.fst hmem')
      rw [List.foldl_cons]
      have hfiles : lookupA (applyFold env cb acc (fp0, c0)).1.files fp =
          lookupA acc.1.files fp :=
        applyOne_files_other env acc.1 cb fp0 c0 fp hfpne
      obtain ⟨ih1, ih2, ih3, ih4⟩ :=
        ih (applyFold env cb acc (fp0, c0)) fp c hnd' hmem'
      refine ⟨?_, ?_, ?_, ?_⟩
      · rw [ih1, hfiles]
      · rw [ih2, hfiles]
      · rw [ih3, backupCond_congr env acc.1 _ cb fp hfiles, hfiles]
        have hsplit : (applyFold env cb acc (fp0, c0)).2.2 =
            acc.2.2 ++ (applyOne env acc.1 cb fp0 c0).2.2 := rfl
        rw [hsplit, List.filter_append,
          applyOne_events_filter_other env acc.1 cb fp0 c0 fp hfpne,
          List.append_nil]
      · intro hcond
        rw [backupCond_congr env acc.1 _ cb fp hfiles, hfiles] at ih4
        exact ih4 hcond

/-! ## Claim C5 -/

/-- C5: `apply_fix` returns one boolean entry for every path of
`file_changes` (in order); each file's recorded outcome is a function of
the environment, that file's own presence on disk at entry, and its own
proposed content only — so a failure while processing one file does not
abort or alter the processing of any other; and a file whose content fails
syntax validation is left unchanged on disk and reported `false`. -/
theorem C5_per_file_application (env : PyEnv) (st : DiskState)
    (file_changes : List (String × String)) (cb : Bool)
    (hnd : (file_changes.map Prod.fst).Nodup) :
    ((apply_fix env st file_changes cb).2.1.map Prod.fst =
      file_changes.map Prod.fst) ∧
    (∀ fp c, (fp, c) ∈ file_changes →
      lookupA (apply_fix env st file_changes cb).2.1 fp =
        some (oneFileOutcome env cb fp (lookupA st.files fp).isSome c)) ∧
    (∀ fp c, (fp, c) ∈ file_changes → validate_python_code env c = false →
      lookupA (apply_fix env st file_changes cb).1.files fp =
        lookupA st.files fp ∧
      lookupA (apply_fix env st file_changes cb).2.1 fp = some false) := by
  simp only [apply_fix]
  refine ⟨?_, ?_, ?_⟩
  · have h := apply_fix_results_keys env cb file_changes (st, [], [])
      (by simp) hnd
    simpa using h
  · intro fp c hmem
    exact (apply_fix_per_file env cb file_changes (st, [], []) fp c hnd hmem).1
  · intro fp c hmem hval
    obtain ⟨h1, h2, _, _⟩ :=
      apply_fix_per_file env cb file_changes (st, [], []) fp c hnd hmem
    have hout : oneFileOutcome env cb fp
        (lookupA (st, ([] : List (String × Bool)),
          ([] : List FixEvent)).1.files fp).isSome c = false :=
      oneFileOutcome_of_invalid env cb fp _ c hval
    rw [hout] at h1 h2
    refine ⟨?_, h1⟩
    rw [h2]
    simp

/-- C5 witness: concretely, a suggestion touching a syntactically invalid
`a.py` and a valid `b.py` reports `a.py` failed with its old content intact. -/
theorem C5_witness :
    lookupA (apply_fix envW stW
      [("a.py", "def f(:"), ("b.py", "x = 1")] true).2.1 "a.py" = some false ∧
    lookupA (apply_fix envW stW
      [("a.py", "def f(:"), ("b.py", "x = 1")] true).1.files "a.py" =
      some "old content" := by
  have h := C5_per_file_application envW stW
    [("a.py", "def f(:"), ("b.py", "x = 1")] true (by decide)
  have h3 := h.2.2 "a.py" "def f(:" (by decide) (by decide)
  exact ⟨h3.2, h3.1.trans (by decide)⟩

/-! ## Claim C8 -/

/-- C8: for each file of a suggestion (distinct paths), the event trace
restricted to that file is an optional backup event followed by an optional
write event — the backup occurs exactly when `create_backup` holds, the
file already exists on disk, and the copy succeeds, and it precedes any
write; the timestamped backup artifact lands in the backup store; no backup
ever happens for a file absent from disk; and when validation later rejects
the content, the backup still exists while no write happened and the file
is unchanged. -/
theorem C8_backup_discipline (env : PyEnv) (st : DiskState)
    (file_changes : List (String × String)) (cb : Bool)
    (hnd : (file_changes.map Prod.fst).Nodup)
    (fp c : String) (hmem : (fp, c) ∈ file_changes) :
    ((apply_fix env st file_changes cb).2.2.filter (fun e => e.path = fp) =
      (if cb && (lookupA st.files fp).isSome && env.copy2_ok fp
        then [FixEvent.backupEv fp] else []) ++
      (if oneFileOutcome env cb fp (lookupA st.files fp).isSome c
        then [FixEvent.writeEv fp] else [])) ∧
    (cb = true → (lookupA st.files fp).isSome = true →
      env.copy2_ok fp = true →
      (backup_name fp env.timestamp, (lookupA st.files fp).getD "") ∈
        (apply_fix env st file_changes cb).1.backups) ∧
    ((lookupA st.files fp).isSome = false →
      FixEvent.backupEv fp ∉ (apply_fix env st file_changes cb).2.2) ∧
    (cb = true → (lookupA st.files fp).isSome = true →
      env.copy2_ok fp = true → validate_python_code env c = false →
      FixEvent.backupEv fp ∈ (apply_fix env st file_changes cb).2.2 ∧
      FixEvent.writeEv fp ∉ (apply_fix env st file_changes cb).2.2 ∧
      lookupA (apply_fix env st file_changes cb).1.files fp =
        lookupA st.files fp) := by
  simp only [apply_fix]
  obtain ⟨h1, h2, h3, h4⟩ :=
    apply_fix_per_file env cb file_changes (st, [], []) fp c hnd hmem
  unfold backupCond at h3 h4
  dsimp only at h1 h2 h3 h4
  simp only [List.filter_nil, List.nil_append] at h3
  refine ⟨h3, ?_, ?_, ?_⟩
  · intro hcb hex hcp
    exact h4 (by rw [hcb, hex, hcp]; rfl)
  · intro hmiss habs
    have hf : FixEvent.backupEv fp ∈
        (file_changes.foldl (applyFold env cb) (st, [], [])).2.2.filter
          (fun e => e.path = fp) :=
      List.mem_filter.mpr ⟨habs, by simp [FixEvent.path]⟩
    rw [h3, hmiss] at hf
    revert hf
    split_ifs <;> simp_all
  · intro hcb hex hcp hval
    subst hcb
    have hout : oneFileOutcome env true fp
        (lookupA st.files fp).isSome c = false :=
      oneFileOutcome_of_invalid env true fp _ c hval
    rw [hout, hex, hcp] at h3
    simp at h3
    rw [hout] at h2
    refine ⟨?_, ?_, ?_⟩
    · have hf : FixEvent.backupEv fp ∈
          (file_changes.foldl (applyFold env true) (st, [], [])).2.2.filter
            (fun e => e.path = fp) := by
        rw [h3]
        simp
      exact (List.mem_filter.mp hf).1
    · intro habs
      have hf : FixEvent.writeEv fp ∈
          (file_changes.foldl (applyFold env true) (st, [], [])).2.2.filter
            (fun e => e.path = fp) :=
        List.mem_filter.mpr ⟨habs, by simp [FixEvent.path]⟩
      rw [h3] at hf
      simp at hf
    · rw [h2]
      simp

/-- C8 witness: concretely, with backups requested, an existing `a.py`
whose proposed content is invalid still gets its timestamped backup, and
its restricted trace is exactly one backup event and no write. -/
theorem C8_witness :
    ("a.py.backup_20260101_120000", "old content") ∈
      (apply_fix envW stW [("a.py", "def f(:")] true).1.backups := by
  have h := C8_backup_discipline envW stW [("a.py", "def f(:")] true
    (by decide) "a.py" "def f(:" (by decide)
  have hm := h.2.1 rfl (by decide) rfl
  rw [show ("a.py.backup_20260101_120000", "old content") =
    (backup_name "a.py" envW.timestamp,
      (lookupA stW.files "a.py").getD "") from by decide]
  exact hm

/-! ## Regex-search and field-extraction lemmas for C6 and C1 -/

theorem dropWhile_append_of_all {α : Type} (p : α → Bool) (l1 l2 : List α)
    (h : ∀ a ∈ l1, p a = true) :
    (l1 ++ l2).dropWhile p = l2.dropWhile p := by
  induction l1 with
  | nil => rfl
  | cons a rest ih =>
    simp only [List.cons_append, List.dropWhile_cons]
    rw [h a (by simp)]
    simp only [if_true]
    exact ih (fun x hx => h x (by simp [hx]))

/-- The leftmost-greedy match of `re.search(r'\x7b.*\x7d', ., re.DOTALL)`:
writing the input as `pre ++ open ++ mid ++ close ++ post` with no opening
brace in `pre` and no closing brace in `post` (i.e. slicing at the first
`\x7b` and the last `\x7d`), the match is exactly that middle slice. -/
theorem findJsonMatchL_sandwich (pre mid post : List Char)
    (hpre : openBrace ∉ pre) (hpost : closeBrace ∉ post) :
    findJsonMatchL (pre ++ openBrace :: (mid ++ closeBrace :: post)) =
      some (openBrace :: (mid ++ [closeBrace])) := by
  have h1 : (pre ++ openBrace :: (mid ++ closeBrace :: post)).dropWhile
      (fun c => c ≠ openBrace) = openBrace :: (mid ++ closeBrace :: post) := by
    rw [dropWhile_append_of_all _ pre _ (fun a ha => by
      simp only [ne_eq, decide_eq_true_eq]
      exact fun e => hpre (e ▸ ha))]
    rw [List.dropWhile_cons]
    simp
  have h2 : (openBrace :: (mid ++ closeBrace :: post)).reverse =
      post.reverse ++ closeBrace :: (mid.reverse ++ [openBrace]) := by
    simp
  have h3 : (post.reverse ++ closeBrace :: (mid.reverse ++ [openBrace])).dropWhile
      (fun c => c ≠ closeBrace) = closeBrace :: (mid.reverse ++ [openBrace]) := by
    rw [dropWhile_append_of_all _ post.reverse _ (fun a ha => by
      simp only [ne_eq, decide_eq_true_eq]
      exact fun e => hpost (e ▸ List.mem_reverse.mp ha))]
    rw [List.dropWhile_cons]
    simp
  unfold findJsonMatchL
  dsimp only
  rw [h1, h2, h3]
  simp

theorem findJsonMatchL_none_of_no_open (cs : List Char)
    (h : ∀ c ∈ cs, c ≠ openBrace) : findJsonMatchL cs = none := by
  unfold findJsonMatchL
  have h1 : cs.dropWhile (fun c => c ≠ openBrace) = [] := by
    rw [List.dropWhile_eq_nil_iff]
    intro x hx
    simp only [ne_eq, decide_eq_true_eq]
    exact h x hx
  rw [h1]
  rfl

/-- The field-extraction step of `_parse_llm_response` on a decoded dict:
every `data.get` succeeds, and the result hinges on `float(confidence)`. -/
theorem parseFields_shape (std : Stdlib) (kvs : List (String × Json)) :
    parseFields std (.obj kvs) =
      Except.bind (pyFloat std (dictGet kvs "confidence" (.num (1/2))))
        (fun conf => Except.ok
          { analysis := dictGet kvs "analysis" (.str "No analysis provided")
            root_cause := dictGet kvs "root_cause" (.str "Unknown")
            fix_description := dictGet kvs "fix_description" (.str "No fix description")
            modified_code := ""
            replication_steps := dictGet kvs "replication_steps" (.arr [])
            confidence := conf
            file_changes := dictGet kvs "file_changes" (.obj []) }) := rfl

/-! ## Claim C6 -/

/-- C6: the three-tier fallback of `_parse_llm_response`.  (1) The searched
substring runs from the first opening brace to the last closing brace —
and (1b) without an opening brace there is no match; (2) on strict decode
success each missing key receives its default (analysis "No analysis
provided", root_cause "Unknown", confidence 0.5, file_changes empty) and
confidence is coerced to a float; (2b) a failing coercion, like (4) a
failing decode, yields the error-report suggestion embedding the raw
response and the exception with confidence 0.0 and empty file_changes; (3)
with no brace-delimited match, the whole raw response becomes the analysis
with confidence 0.3 and empty file_changes. -/
theorem C6_three_tier_parsing (std : Stdlib) (response : String) :
    (∀ pre mid post : List Char, openBrace ∉ pre → closeBrace ∉ post →
      response.data = pre ++ openBrace :: (mid ++ closeBrace :: post) →
      findJsonMatch response =
        some (String.mk (openBrace :: (mid ++ [closeBrace])))) ∧
    ((∀ c ∈ response.data, c ≠ openBrace) → findJsonMatch response = none) ∧
    (∀ m kvs conf, findJsonMatch response = some m →
      std.json_loads m = .ok (.obj kvs) →
      pyFloat std (dictGet kvs "confidence" (.num (1/2))) = .ok conf →
      parse_llm_response std response =
        { analysis := dictGet kvs "analysis" (.str "No analysis provided")
          root_cause := dictGet kvs "root_cause" (.str "Unknown")
          fix_description := dictGet kvs "fix_description" (.str "No fix description")
          modified_code := ""
          replication_steps := dictGet kvs "replication_steps" (.arr [])
          confidence := conf
          file_changes := dictGet kvs "file_changes" (.obj []) }) ∧
    (∀ m kvs e, findJsonMatch response = some m →
      std.json_loads m = .ok (.obj kvs) →
      pyFloat std (dictGet kvs "confidence" (.num (1/2))) = .error e →
      parse_llm_response std response =
        { analysis := .str ("Error parsing LLM response: " ++ e ++
            "\n\nRaw response:\n" ++ response)
          root_cause := .str "Response parsing failed"
          fix_description := .str "Manual intervention required"
          modified_code := ""
          replication_steps := .arr [.str "Check LLM response manually"]
          confidence := 0
          file_changes := .obj [] }) ∧
    (findJsonMatch response = none →
      parse_llm_response std response =
        { analysis := .str response
          root_cause := .str "Parsed from unstructured response"
          fix_description := .str "See analysis for details"
          modified_code := ""
          replication_steps := .arr [.str "Manual analysis required"]
          confidence := 3/10
          file_changes := .obj [] }) ∧
    (∀ m e, findJsonMatch response = some m → std.json_loads m = .error e →
      parse_llm_response std response =
        { analysis := .str ("Error parsing LLM response: " ++ e ++
            "\n\nRaw response:\n" ++ response)
          root_cause := .str "Response parsing failed"
          fix_description := .str "Manual intervention required"
          modified_code := ""
          replication_steps := .arr [.str "Check LLM response manually"]
          confidence := 0
          file_changes := .obj [] }) := by
  refine ⟨?_, ?_, ?_, ?_, ?_, ?_⟩
  · intro pre mid post hpre hpost hs
    unfold findJsonMatch
    rw [show response.toList = response.data from rfl, hs,
      findJsonMatchL_sandwich pre mid post hpre hpost]
    rfl
  · intro h
    unfold findJsonMatch
    rw [show response.toList = response.data from rfl,
      findJsonMatchL_none_of_no_open _ (fun c hc => h c hc)]
    rfl
  · intro m kvs conf hm hl hconf
    unfold parse_llm_response
    rw [hm]
    dsimp only
    rw [hl]
    dsimp only
    rw [parseFields_shape, hconf]
    rfl
  · intro m kvs e hm hl hconf
    unfold parse_llm_response
    rw [hm]
    dsimp only
    rw [hl]
    dsimp only
    rw [parseFields_shape, hconf]
    rfl
  · intro hm
    unfold parse_llm_response
    rw [hm]
    rfl
  · intro m e hm hl
    unfold parse_llm_response
    rw [hm]
    dsimp only
    rw [hl]
    rfl

/-- C6 witness: a plain-prose response with no braces falls back to the
0.3-confidence unstructured suggestion. -/
theorem C6_witness :
    parse_llm_response stdOpaque "I could not find the bug" =
      { analysis := .str "I could not find the bug"
        root_cause := .str "Parsed from unstructured response"
        fix_description := .str "See analysis for details"
        modified_code := ""
        replication_steps := .arr [.str "Manual analysis required"]
        confidence := 3/10
        file_changes := .obj [] } :=
  (C6_three_tier_parsing stdOpaque "I could not find the bug").2.2.2.2.1 rfl

/-! ## Claim C1 -/

/-- C1 counterexample: the claim asserts confidence always lands in [0,1],
but a well-formed JSON response supplying `"confidence": 2.5` is passed
through `float(...)` unchecked, so the returned FixSuggestion carries
confidence 2.5. -/
theorem C1_counterexample :
    (analyze_and_fix stdConfidence
      (.ok "\x7b\"confidence\": 2.5\x7d")).confidence = 5/2 ∧
    ¬ ((analyze_and_fix stdConfidence
      (.ok "\x7b\"confidence\": 2.5\x7d")).confidence ≤ 1) := by
  have h : (analyze_and_fix stdConfidence
      (.ok "\x7b\"confidence\": 2.5\x7d")).confidence = 5/2 := rfl
  refine ⟨h, ?_⟩
  rw [h]
  norm_num

/-- C1 (amended): `analyze_and_fix` is total — every transport failure and
every response shape produces a structurally complete FixSuggestion with
`modified_code = ""` — and its confidence lies in [0,1] on every path
except the decode-success path, where the JSON-supplied confidence is
coerced to a float and passed through unchecked. -/
theorem C1_amended_total_with_passthrough (std : Stdlib)
    (llm_call : Except String String) :
    (analyze_and_fix std llm_call).modified_code = "" ∧
    ((0 ≤ (analyze_and_fix std llm_call).confidence ∧
        (analyze_and_fix std llm_call).confidence ≤ 1) ∨
      (∃ response m kvs, llm_call = .ok response ∧
        findJsonMatch response = some m ∧
        std.json_loads m = .ok (.obj kvs) ∧
        pyFloat std (dictGet kvs "confidence" (.num (1/2))) =
          .ok (analyze_and_fix std llm_call).confidence)) := by
  cases llm_call with
  | error e => exact ⟨rfl, .inl (by norm_num [analyze_and_fix])⟩
  | ok response =>
    cases hm : findJsonMatch response with
    | none =>
      have hp : parse_llm_response std response = unstructuredFallback response := by
        unfold parse_llm_response
        rw [hm]
      rw [show analyze_and_fix std (.ok response) =
        parse_llm_response std response from rfl, hp]
      exact ⟨rfl, .inl (by norm_num [unstructuredFallback])⟩
    | some m =>
      cases hl : std.json_loads m with
      | error e =>
        have hp : parse_llm_response std response = parseErrorFallback response e := by
          unfold parse_llm_response
          rw [hm]
          dsimp only
          rw [hl]
        rw [show analyze_and_fix std (.ok response) =
          parse_llm_response std response from rfl, hp]
        exact ⟨rfl, .inl (by norm_num [parseErrorFallback])⟩
      | ok data =>
        have hgen : ∀ e', parseFields std data = .error e' →
            analyze_and_fix std (.ok response) = parseErrorFallback response e' := by
          intro e' hpf
          show parse_llm_response std response = _
          unfold parse_llm_response
          rw [hm]
          dsimp only
          rw [hl]
          dsimp only
          rw [hpf]
        cases data with
        | obj kvs =>
          cases hconf : pyFloat std (dictGet kvs "confidence" (.num (1/2))) with
          | error e' =>
            have := hgen e' (by rw [parseFields_shape, hconf]; rfl)
            rw [this]
            exact ⟨rfl, .inl (by norm_num [parseErrorFallback])⟩
          | ok conf =>
            have hp : analyze_and_fix std (.ok response) =
                { analysis := dictGet kvs "analysis" (.str "No analysis provided")
                  root_cause := dictGet kvs "root_cause" (.str "Unknown")
                  fix_description :=
                    dictGet kvs "fix_description" (.str "No fix description")
                  modified_code := ""
                  replication_steps := dictGet kvs "replication_steps" (.arr [])
                  confidence := conf
                  file_changes := dictGet kvs "file_changes" (.obj []) } := by
              show parse_llm_response std response = _
              unfold parse_llm_response
              rw [hm]
              dsimp only
              rw [hl]
              dsimp only
              rw [parseFields_shape, hconf]
              rfl
            rw [hp]
            exact ⟨rfl, .inr ⟨response, m, kvs, rfl, hm, hl, hconf⟩⟩
        | null =>
          rw [hgen _ rfl]
          exact ⟨rfl, .inl (by norm_num [parseErrorFallback])⟩
        | bool b =>
          rw [hgen _ rfl]
          exact ⟨rfl, .inl (by norm_num [parseErrorFallback])⟩
        | num q =>
          rw [hgen _ rfl]
          exact ⟨rfl, .inl (by norm_num [parseErrorFallback])⟩
        | str s =>
          rw [hgen _ rfl]
          exact ⟨rfl, .inl (by norm_num [parseErrorFallback])⟩
        | arr a =>
          rw [hgen _ rfl]
          exact ⟨rfl, .inl (by norm_num [parseErrorFallback])⟩

end ErrorAnalyzer
